import Mathlib

/-!
Verification of the IPUMS / County Health Rankings state-level reconciliation
pipeline.  The pipeline reads person-level microdata records and county-level
health records, aggregates each to the state level, joins the two per-state
tables on the state FIPS code, maps state codes to names, sorts by education
descending and persists the result.

Numbers are modelled as rationals (`ℚ`); the missing values produced by
`pd.to_numeric(errors=coerce)` and by failed joins or name lookups are
modelled as `Option`.
-/

namespace Postsecondary

/-- One decoded fixed-width microdata row, with the eleven columns of the
source's `colspecs` / `column_names` (YEAR, SAMPLE, SERIAL, STATEFIP,
COUNTYFIP, GQ, PERNUM, PERWT, HCOVANY, EDUC, EDUCD). -/
structure PersonRecord where
  year : Nat
  sample : Nat
  serial : Nat
  statefip : Nat
  countyfip : Nat
  gq : Nat
  pernum : Nat
  perwt : ℚ
  hcovany : Nat
  educ : Nat
  educd : Nat
  deriving Repr, DecidableEq

/-- The group-quarters filter `df_ipums['GQ'].isin([1, 2, 5])`. -/
def gqKeep (r : PersonRecord) : Bool :=
  r.gq == 1 || r.gq == 2 || r.gq == 5

/-- The sorted unique group keys produced by `groupby` (pandas sorts group
keys ascending by default). -/
def sortedKeys (l : List Nat) : List Nat :=
  List.insertionSort (· ≤ ·) l.dedup

/-- Arithmetic mean of a list of rationals, `Series.mean` on a non-empty
group (groups coming from `groupby` are never empty). -/
def mean (l : List ℚ) : ℚ :=
  l.sum / l.length

/-- One row of `ipums_summary`: per-state education mean and insured rate. -/
structure IpumsRow where
  statefip : Nat
  education : ℚ
  insured_rate : ℚ
  deriving Repr, DecidableEq

/-- The records of one state group. -/
def stateGroup (rs : List PersonRecord) (s : Nat) : List PersonRecord :=
  rs.filter (fun r => r.statefip == s)

/-- `ipums_summary`: keep GQ ∈ {1,2,5}, group by STATEFIP, take the mean of
EDUC (`education`) and the mean of the HCOVANY == 2 indicator
(`insured_rate`), then merge the two groupby results on STATEFIP (both have
the same key set in the same sorted order, so the merge pairs them up). -/
def ipums_summary (rs : List PersonRecord) : List IpumsRow :=
  let kept := rs.filter gqKeep
  (sortedKeys (kept.map (·.statefip))).map (fun s =>
    { statefip := s
      education := mean ((stateGroup kept s).map (fun r => (r.educ : ℚ)))
      insured_rate := mean ((stateGroup kept s).map
        (fun r => if r.hcovany == 2 then (1 : ℚ) else 0)) })

/-- One county row of the health CSV after column extraction: the stringified
free-form `5-digit FIPS Code` field, and the `pd.to_numeric(errors=coerce)`
results for `Homicides raw value` and `Population raw value` (`none` models
NaN). -/
structure HealthRecord where
  fips_raw : String
  homicides_raw : Option ℚ
  population_raw : Option ℚ
  deriving Repr, DecidableEq

/-- Python `str.zfill(w)`: left-pad with zeros to width `w` (strings already
at least `w` long are returned unchanged). -/
def zfill (w : Nat) (s : String) : String :=
  String.mk (List.replicate (w - s.length) '0') ++ s

/-- The padded FIPS column: `df_health['5-digit FIPS Code'].astype(str).str.zfill(5)`. -/
def fipsPad (r : HealthRecord) : String := zfill 5 r.fips_raw

/-- The FIPS validity filter of the source: padded length exactly 5 and
`str.isnumeric`.  `isnumeric` is modelled as all-decimal-digits, which is
exact on ASCII data (non-ASCII numerics would crash the source's later
`astype(int)` anyway, so no such record survives the pipeline). -/
def fipsValid (s : String) : Bool :=
  s.length == 5 && s.toList.all Char.isDigit

/-- Decimal value of a digit string, `int(...)` on the strings of digits
that survive validation. -/
def digitsToNat (l : List Char) : Nat :=
  l.foldl (fun n c => n * 10 + (c.toNat - 48)) 0

/-- `df_health['FIPS'].str[:2].astype(int)`: the first two characters of the
padded FIPS, parsed as a decimal integer (only all-digit strings reach this
point in the pipeline; on anything else the source's `astype(int)` would
raise). -/
def stateOfFips (s : String) : Nat :=
  digitsToNat (s.toList.take 2)

/-- The health table after the hard FIPS validity filter (source lines
53-54): invalid rows are dropped from the table entirely. -/
def healthValid (rs : List HealthRecord) : List HealthRecord :=
  rs.filter (fun r => fipsValid (fipsPad r))

/-- `df_health_clean`: drop rows with missing homicides or population
(`dropna`), then keep only positive population. -/
def healthClean (rs : List HealthRecord) : List HealthRecord :=
  (healthValid rs).filter (fun r =>
    r.homicides_raw.isSome && r.population_raw.isSome &&
      decide (0 < r.population_raw.getD 0))

/-- The per-county rate column `homicide_rate_per_100k` (source lines 61-65):
`np.where((population > 0) & homicides.notna(), homicides/population*100000, nan)`.
A missing population makes the condition false, hence NaN. -/
def homicide_rate_per_100k (r : HealthRecord) : Option ℚ :=
  match r.homicides_raw, r.population_raw with
  | some h, some p => if 0 < p then some (h / p * 100000) else none
  | _, _ => none

/-- One row of `state_homicide` after the rate computation: the `homicides`
column holds the per-100k state rate (`none` models a NaN value, which for
float division could only arise from a zero population sum). -/
structure HomRow where
  statefip : Nat
  homicides : Option ℚ
  deriving Repr, DecidableEq

/-- The cleaned counties of one state group. -/
def cleanGroup (rs : List HealthRecord) (s : Nat) : List HealthRecord :=
  (healthClean rs).filter (fun r => stateOfFips (fipsPad r) == s)

/-- Homicide sum of a state group (`'homicides': 'sum'`). -/
def stateHomSum (rs : List HealthRecord) (s : Nat) : ℚ :=
  ((cleanGroup rs s).map (fun r => r.homicides_raw.getD 0)).sum

/-- Population sum of a state group (`'population': 'sum'`). -/
def statePopSum (rs : List HealthRecord) (s : Nat) : ℚ :=
  ((cleanGroup rs s).map (fun r => r.population_raw.getD 0)).sum

/-- `state_homicide`: group the cleaned counties by state, sum homicides and
population, and overwrite the homicide column with
`sum(homicides) / sum(population) * 100000` (ratio of sums).  The division
is guarded by `0 < sum(population)`, mirroring float semantics where a zero
denominator would not yield a finite rate; the guard is proved to always
hold below. -/
def state_homicide (rs : List HealthRecord) : List HomRow :=
  (sortedKeys ((healthClean rs).map (fun r => stateOfFips (fipsPad r)))).map
    (fun s =>
      { statefip := s
        homicides := if 0 < statePopSum rs s then
            some (stateHomSum rs s / statePopSum rs s * 100000)
          else none })

/-- One row of the `combined` table. -/
structure CombinedRow where
  statefip : Nat
  education : ℚ
  insured_rate : ℚ
  homicides : Option ℚ
  deriving Repr, DecidableEq

/-- Key lookup on the homicide side of the merge (both merge inputs have
unique keys, coming from `groupby`, so a pandas merge is a key lookup). -/
def lookupHom (hm : List HomRow) (s : Nat) : Option HomRow :=
  hm.find? (fun h => h.statefip == s)

/-- `pd.merge(ipums_summary, homicide, on='STATEFIP', how='inner')`: the
left keys that also appear on the right, in left order. -/
def innerMerge (ip : List IpumsRow) (hm : List HomRow) : List CombinedRow :=
  ip.filterMap (fun r => (lookupHom hm r.statefip).map (fun h =>
    { statefip := r.statefip, education := r.education,
      insured_rate := r.insured_rate, homicides := h.homicides }))

/-- `pd.merge(..., how='left')`: every left row, with a missing homicide
value where the key has no match. -/
def leftMerge (ip : List IpumsRow) (hm : List HomRow) : List CombinedRow :=
  ip.map (fun r =>
    { statefip := r.statefip, education := r.education,
      insured_rate := r.insured_rate,
      homicides := (lookupHom hm r.statefip).bind (fun h => h.homicides) })

/-- The merge step with its degradation policy (source lines 96-104): start
from the inner join; if every row's homicide value is missing (vacuously so
for an empty join — `Series.isna().all()` is `True` on an empty series),
redo the merge as a left join. -/
def combine (ip : List IpumsRow) (hm : List HomRow) : List CombinedRow :=
  if (innerMerge ip hm).all (fun r => r.homicides.isNone) then leftMerge ip hm
  else innerMerge ip hm

/-- The static state-code → state-name table of the source (50 states plus
the District of Columbia). -/
def state_names : List (Nat × String) :=
  [(1, "Alabama"), (2, "Alaska"), (4, "Arizona"), (5, "Arkansas"),
   (6, "California"), (8, "Colorado"), (9, "Connecticut"), (10, "Delaware"),
   (11, "District of Columbia"), (12, "Florida"), (13, "Georgia"),
   (15, "Hawaii"), (16, "Idaho"), (17, "Illinois"), (18, "Indiana"),
   (19, "Iowa"), (20, "Kansas"), (21, "Kentucky"), (22, "Louisiana"),
   (23, "Maine"), (24, "Maryland"), (25, "Massachusetts"), (26, "Michigan"),
   (27, "Minnesota"), (28, "Mississippi"), (29, "Missouri"), (30, "Montana"),
   (31, "Nebraska"), (32, "Nevada"), (33, "New Hampshire"),
   (34, "New Jersey"), (35, "New Mexico"), (36, "New York"),
   (37, "North Carolina"), (38, "North Dakota"), (39, "Ohio"),
   (40, "Oklahoma"), (41, "Oregon"), (42, "Pennsylvania"),
   (44, "Rhode Island"), (45, "South Carolina"), (46, "South Dakota"),
   (47, "Tennessee"), (48, "Texas"), (49, "Utah"), (50, "Vermont"),
   (51, "Virginia"), (53, "Washington"), (54, "West Virginia"),
   (55, "Wisconsin"), (56, "Wyoming")]

/-- `Series.map(state_names)`: dictionary lookup, `none` (NaN) for codes
absent from the table. -/
def mapStateName (s : Nat) : Option String :=
  (state_names.find? (fun p => p.1 == s)).map (·.2)

/-- One row of the final table after column selection: exactly the four
`display_cols` columns, nothing else (so `to_csv(index=False)` writes no
index column). -/
structure SummaryRow where
  state : Option String
  education : ℚ
  insured_rate : ℚ
  homicides : Option ℚ
  deriving Repr, DecidableEq

/-- The source's `display_cols`, the header and column order of the emitted
table. -/
def display_cols : List String :=
  ["state", "education", "insured_rate", "homicides"]

/-- `combined['state'] = combined['STATEFIP'].map(state_names)` followed by
`combined[display_cols]`: attach the name and keep the four display
columns. -/
def selectDisplay (l : List CombinedRow) : List SummaryRow :=
  l.map (fun r =>
    { state := mapStateName r.statefip, education := r.education,
      insured_rate := r.insured_rate, homicides := r.homicides })

/-- The comparison used to sort the final table: ascending education. -/
def eduLE (a b : SummaryRow) : Prop := a.education ≤ b.education

instance : DecidableRel eduLE := fun a b => inferInstanceAs (Decidable (a.education ≤ b.education))

instance : IsTotal SummaryRow eduLE := ⟨fun a b => le_total a.education b.education⟩

instance : IsTrans SummaryRow eduLE := ⟨fun _ _ _ h h2 => le_trans h h2⟩

/-- `sort_values('education', ascending=False)`.  For a single sort key
pandas computes an ascending argsort with the chosen kind and reverses the
indexer when `ascending=False` (`pandas.core.sorting.nargsort`); numpy's
default quicksort runs as a plain (stable) insertion sort on arrays shorter
than 16 elements, so on such tables the result is exactly the reverse of a
stable ascending sort, which is how it is modelled here. -/
def combined_sorted (l : List SummaryRow) : List SummaryRow :=
  (List.insertionSort eduLE l).reverse

/-- `DataFrame.round(4)` on one value: round half away from zero is a fine
stand-in here, since the only fact proved about rounding is that some
pipeline outputs are not representable with 4 decimal digits at all, which
is independent of the tie-breaking rule. -/
def round4 (q : ℚ) : ℚ := (round (q * 10000) : ℤ) / 10000

/-- `DataFrame.round(4)` on one row (missing values stay missing). -/
def roundRow (r : SummaryRow) : SummaryRow :=
  { state := r.state, education := round4 r.education,
    insured_rate := round4 r.insured_rate, homicides := r.homicides.map round4 }

/-- The table the pipeline persists with
`combined_sorted.to_csv('state_summary_table.csv', index=False)`:
sorted, with the four display columns, and NOT rounded (`.round(4)` in the
source is applied only to the copy that is printed). -/
def outputTable (ps : List PersonRecord) (hs : List HealthRecord) :
    List SummaryRow :=
  combined_sorted (selectDisplay (combine (ipums_summary ps) (state_homicide hs)))

/-- The table the pipeline prints with `print(combined_sorted.round(4))`:
the rounded copy of the persisted table. -/
def displayedTable (ps : List PersonRecord) (hs : List HealthRecord) :
    List SummaryRow :=
  (outputTable ps hs).map roundRow

/-- Comparator taken from the spec text, not from the source (the source
never computes it): the arithmetic mean of the defined per-county per-100k
rates of a list of counties. -/
def naiveMeanRate (rs : List HealthRecord) : ℚ :=
  mean (rs.filterMap homicide_rate_per_100k)

/-- The spec's crafted two-county example for one state: 10 homicides in a
county of 100,000 and 1 homicide in a county of 1,000,000. -/
def exTwoCounty : List HealthRecord :=
  [⟨"01001", some 10, some 100000⟩, ⟨"01003", some 1, some 1000000⟩]

/-! ### Helper lemmas -/

theorem mem_sortedKeys {x : Nat} {l : List Nat} : x ∈ sortedKeys l ↔ x ∈ l := by
  unfold sortedKeys
  rw [List.mem_insertionSort]
  exact List.mem_dedup

theorem filter_self_idem {α : Type} (p : α → Bool) (l : List α) :
    (l.filter p).filter p = l.filter p := by
  rw [List.filter_filter]
  simp

/-- The arithmetic mean of a non-empty list is bounded by any bounds valid
for all its elements. -/
theorem mean_bounds {l : List ℚ} {a b : ℚ} (hne : l ≠ [])
    (h : ∀ x ∈ l, a ≤ x ∧ x ≤ b) : a ≤ mean l ∧ mean l ≤ b := by
  have hlen : 0 < (l.length : ℚ) := by
    exact_mod_cast List.length_pos.2 hne
  have h1 : l.length • a ≤ l.sum := List.card_nsmul_le_sum l a (fun x hx => (h x hx).1)
  have h2 : l.sum ≤ l.length • b := List.sum_le_card_nsmul l b (fun x hx => (h x hx).2)
  rw [nsmul_eq_mul] at h1 h2
  constructor
  · rw [mean, le_div_iff₀ hlen]
    linarith
  · rw [mean, div_le_iff₀ hlen]
    linarith

/-- Records surviving `df_health_clean` have a positive population. -/
theorem healthClean_pos {rs : List HealthRecord} {r : HealthRecord}
    (h : r ∈ healthClean rs) : 0 < r.population_raw.getD 0 := by
  unfold healthClean at h
  have h2 := (List.mem_filter.1 h).2
  simp only [Bool.and_eq_true, decide_eq_true_eq] at h2
  exact h2.2

/-- Every row of `state_homicide` comes from a non-empty group with a
positive population sum, and carries the ratio-of-sums rate. -/
theorem state_homicide_row_spec {rs : List HealthRecord} {row : HomRow}
    (h : row ∈ state_homicide rs) :
    0 < statePopSum rs row.statefip ∧
      row.homicides =
        some (stateHomSum rs row.statefip / statePopSum rs row.statefip * 100000) := by
  unfold state_homicide at h
  obtain ⟨s, hs, rfl⟩ := List.mem_map.1 h
  have hs2 : s ∈ (healthClean rs).map (fun r => stateOfFips (fipsPad r)) :=
    mem_sortedKeys.1 hs
  obtain ⟨r, hr, hrs⟩ := List.mem_map.1 hs2
  have hrg : r ∈ cleanGroup rs s := by
    unfold cleanGroup
    exact List.mem_filter.2 ⟨hr, by simp [hrs]⟩
  have hpos : 0 < statePopSum rs s := by
    unfold statePopSum
    refine List.sum_pos _ ?_ ?_
    · intro x hx
      obtain ⟨r2, hr2, rfl⟩ := List.mem_map.1 hx
      exact healthClean_pos (List.mem_filter.1 hr2).1
    · simp only [ne_eq, List.map_eq_nil_iff]
      exact List.ne_nil_of_mem hrg
  exact ⟨hpos, by simp [hpos]⟩

/-- The FIPS validity filter is a hard filter applied before anything else on
the health side, so re-filtering an already filtered table changes
nothing. -/
theorem healthValid_idem (rs : List HealthRecord) :
    healthValid (healthValid rs) = healthValid rs :=
  filter_self_idem _ rs

theorem healthClean_of_valid (rs : List HealthRecord) :
    healthClean (healthValid rs) = healthClean rs := by
  unfold healthClean
  rw [healthValid_idem]

theorem cleanGroup_of_valid (rs : List HealthRecord) (s : Nat) :
    cleanGroup (healthValid rs) s = cleanGroup rs s := by
  unfold cleanGroup
  rw [healthClean_of_valid]

/-! ### C3 -/

/-- C3 counterexample: the claim asserts that the input string "6037" is
rejected for having length 4; in the source, `zfill(5)` runs before the
length test, so "6037" is padded to "06037" and accepted, with state
code 6. -/
theorem c3_counterexample :
    fipsValid (zfill 5 "6037") = true ∧ stateOfFips (zfill 5 "6037") = 6 := by
  constructor
  · decide
  · decide

/-- C3 (amended): health-data key validation stringifies the FIPS field,
left-zero-pads it to width 5, and keeps a record only if the padded form
has length exactly 5 and is entirely numeric; "06037" is accepted (state 6),
"6037" is padded to "06037" and therefore also accepted (state 6), "ABCDE"
is rejected (non-numeric) and "123456" is rejected (length 6), and every
rejected record is excluded from the table before any aggregation. -/
theorem c3_fips_validation :
    fipsValid (zfill 5 "06037") = true ∧ stateOfFips (zfill 5 "06037") = 6 ∧
      fipsValid (zfill 5 "6037") = true ∧ stateOfFips (zfill 5 "6037") = 6 ∧
      fipsValid (zfill 5 "ABCDE") = false ∧
      fipsValid (zfill 5 "123456") = false ∧
      ∀ rs : List HealthRecord, state_homicide (healthValid rs) = state_homicide rs := by
  refine ⟨by decide, by decide, by decide, by decide, by decide, by decide, ?_⟩
  intro rs
  unfold state_homicide stateHomSum statePopSum
  rw [healthClean_of_valid]
  simp only [cleanGroup_of_valid]

/-! ### C4 -/

/-- C4: only records with GQ ∈ {1, 2, 5} participate in aggregation: the
per-state aggregates over any input equal those over the subset of records
passing the GQ filter, and a record failing the filter never changes the
summary. -/
theorem c4_gq_filter (r : PersonRecord) (rs : List PersonRecord)
    (h : gqKeep r = false) :
    ipums_summary rs = ipums_summary (rs.filter gqKeep) ∧
      ipums_summary (r :: rs) = ipums_summary rs := by
  constructor
  · simp only [ipums_summary, filter_self_idem]
  · simp only [ipums_summary]
    rw [List.filter_cons_of_neg (by simp [h])]

/-- C4 witness: a concrete GQ = 3 (institutional) record is discarded. -/
theorem c4_witness :
    gqKeep ⟨2023, 1, 1, 1, 1, 3, 1, 1, 2, 5, 50⟩ = false ∧
      ipums_summary (⟨2023, 1, 1, 1, 1, 3, 1, 1, 2, 5, 50⟩ ::
          [⟨2023, 1, 1, 1, 1, 1, 1, 1, 2, 6, 60⟩]) =
        ipums_summary [⟨2023, 1, 1, 1, 1, 1, 1, 1, 2, 6, 60⟩] :=
  ⟨by decide,
    (c4_gq_filter ⟨2023, 1, 1, 1, 1, 3, 1, 1, 2, 5, 50⟩
      [⟨2023, 1, 1, 1, 1, 1, 1, 1, 2, 6, 60⟩] (by decide)).2⟩

/-! ### C2 -/

/-- C2: if the inner join yields zero rows carrying homicide data (every
joined row's homicide field missing, vacuously so for an empty join), the
pipeline re-runs the combination as a left join in which the microdata side
is authoritative: one output row per microdata state, and states without a
homicide match keep a missing homicide value rather than a fabricated
one. -/
theorem c2_left_join_fallback (ip : List IpumsRow) (hm : List HomRow)
    (h : (innerMerge ip hm).all (fun r => r.homicides.isNone) = true) :
    combine ip hm = leftMerge ip hm ∧
      (combine ip hm).length = ip.length ∧
      ∀ r ∈ combine ip hm, lookupHom hm r.statefip = none → r.homicides = none := by
  have hc : combine ip hm = leftMerge ip hm := by
    unfold combine
    rw [if_pos h]
  refine ⟨hc, ?_, ?_⟩
  · rw [hc]
    exact List.length_map _ _
  · rw [hc]
    intro r hr hnone
    obtain ⟨x, _, rfl⟩ := List.mem_map.1 hr
    simp_all

/-- The spec's microdata side for the disjoint-states example: one person
in each of states 1, 2 and 3. -/
def exMicro123 : List PersonRecord :=
  [⟨2023, 1, 1, 1, 1, 1, 1, 1, 2, 6, 60⟩,
   ⟨2023, 1, 2, 2, 1, 1, 1, 1, 1, 7, 70⟩,
   ⟨2023, 1, 3, 3, 1, 2, 1, 1, 2, 8, 80⟩]

/-- The spec's health side for the disjoint-states example: one county in
each of states 9, 10 and 11. -/
def exHealth91011 : List HealthRecord :=
  [⟨"09001", some 2, some 100000⟩,
   ⟨"10001", some 3, some 100000⟩,
   ⟨"11001", some 4, some 100000⟩]

/-- C2 witness: with microdata states {1,2,3} and health states {9,10,11}
the inner join is empty, the fallback left join fires, and the output is
exactly 3 rows, each with a missing homicide rate. -/
theorem c2_witness :
    (innerMerge (ipums_summary exMicro123) (state_homicide exHealth91011)).all
        (fun r => r.homicides.isNone) = true ∧
      combine (ipums_summary exMicro123) (state_homicide exHealth91011) =
        [⟨1, 6, 1⟩, ⟨2, 7, 0⟩, ⟨3, 8, 1⟩].map
          (fun r : IpumsRow =>
            { statefip := r.statefip, education := r.education,
              insured_rate := r.insured_rate, homicides := none }) := by
  have hi : ipums_summary exMicro123 = [⟨1, 6, 1⟩, ⟨2, 7, 0⟩, ⟨3, 8, 1⟩] := by
    simp +decide only [ipums_summary, gqKeep, sortedKeys, stateGroup, mean, exMicro123,
      List.filter, List.dedup, List.insertionSort, List.pwFilter, List.orderedInsert,
      List.map, List.sum_cons, List.sum_nil, List.length, IpumsRow.mk.injEq]
    norm_num
  have hh : state_homicide exHealth91011 = [⟨9, some 2⟩, ⟨10, some 3⟩, ⟨11, some 4⟩] := by
    simp +decide only [state_homicide, healthClean, healthValid, cleanGroup, sortedKeys,
      fipsValid, fipsPad, zfill, stateOfFips, digitsToNat, stateHomSum, statePopSum,
      exHealth91011, List.filter, List.dedup, List.insertionSort, List.pwFilter,
      List.foldl, List.take, List.replicate, List.map, List.sum_cons, List.sum_nil,
      List.orderedInsert, Option.getD, List.length, HomRow.mk.injEq, Option.some.injEq]
    norm_num
    decide
  have hall : (innerMerge (ipums_summary exMicro123) (state_homicide exHealth91011)).all
      (fun r => r.homicides.isNone) = true := by
    rw [hi, hh]
    rfl
  refine ⟨hall, ?_⟩
  rw [(c2_left_join_fallback _ _ hall).1, hi, hh]
  rfl

/-! ### C10 -/

/-- C10: every row produced by the health-side aggregation carries a
non-missing homicide rate (each grouped state sums the positive populations
of a non-empty county group), hence every row of the inner join carries
non-missing homicide data, and the left-join fallback condition can only
fire when the inner join is empty. -/
theorem c10_nonnull_invariant (ip : List IpumsRow) (hs : List HealthRecord) :
    (∀ row ∈ state_homicide hs, row.homicides.isSome = true) ∧
      (∀ row ∈ innerMerge ip (state_homicide hs), row.homicides.isSome = true) ∧
      ((innerMerge ip (state_homicide hs)).all (fun r => r.homicides.isNone) = true →
        innerMerge ip (state_homicide hs) = []) := by
  have hsome : ∀ row ∈ state_homicide hs, row.homicides.isSome = true := by
    intro row hrow
    rw [(state_homicide_row_spec hrow).2]
    rfl
  have hinner : ∀ row ∈ innerMerge ip (state_homicide hs), row.homicides.isSome = true := by
    intro row hrow
    unfold innerMerge at hrow
    obtain ⟨r, _, hmap⟩ := List.mem_filterMap.1 hrow
    obtain ⟨h2, hfind, rfl⟩ := Option.map_eq_some'.1 hmap
    exact hsome h2 (List.mem_of_find?_eq_some hfind)
  refine ⟨hsome, hinner, ?_⟩
  intro hall
  rcases hres : innerMerge ip (state_homicide hs) with _ | ⟨row, rest⟩
  · rfl
  · exfalso
    have h1 : row.homicides.isSome = true := hinner row (hres ▸ List.mem_cons_self row rest)
    have h2 : row.homicides.isNone = true := by
      have := List.all_eq_true.1 hall row (hres ▸ List.mem_cons_self row rest)
      simpa using this
    simp [Option.isNone_iff_eq_none.1 h2] at h1

/-- C10 witness: with no health data at all the inner join is empty and the
fallback condition is (vacuously) true. -/
theorem c10_witness :
    (innerMerge [⟨1, 5, 1⟩] (state_homicide [])).all (fun r => r.homicides.isNone) = true ∧
      innerMerge [⟨1, 5, 1⟩] (state_homicide []) = [] :=
  ⟨rfl, (c10_nonnull_invariant [⟨1, 5, 1⟩] []).2.2 rfl⟩

/-! ### C1 -/

/-- C1: the per-state homicide rate is the ratio of sums
`sum(homicides) / sum(population) * 100000` over the counties surviving the
missing-value and positive-population filters; on the spec's two-county
example (10 homicides / 100,000 pop and 1 homicide / 1,000,000 pop) this
gives 1.0 per 100k, while the arithmetic mean of the per-county per-100k
rates would give 5.05, so the two aggregation strategies genuinely
differ. -/
theorem c1_ratio_of_sums :
    (∀ (rs : List HealthRecord) (row : HomRow), row ∈ state_homicide rs →
        row.homicides =
          some (stateHomSum rs row.statefip / statePopSum rs row.statefip * 100000)) ∧
      state_homicide exTwoCounty = [⟨1, some 1⟩] ∧
      naiveMeanRate exTwoCounty = 101 / 20 ∧
      (1 : ℚ) ≠ 101 / 20 := by
  refine ⟨?_, ?_, ?_, by norm_num⟩
  · intro rs row hrow
    exact (state_homicide_row_spec hrow).2
  · simp +decide only [state_homicide, healthClean, healthValid, cleanGroup, sortedKeys,
      fipsValid, fipsPad, zfill, stateOfFips, digitsToNat, stateHomSum, statePopSum,
      exTwoCounty, List.filter, List.dedup, List.insertionSort, List.pwFilter,
      List.foldl, List.take, List.replicate, List.map, List.sum_cons, List.sum_nil,
      List.orderedInsert, Option.getD, List.length, HomRow.mk.injEq, Option.some.injEq]
    norm_num
    all_goals decide
  · simp +decide only [naiveMeanRate, exTwoCounty, homicide_rate_per_100k, mean,
      List.filterMap_cons, List.filterMap_nil]
    norm_num

/-- C1 witness: the ratio-of-sums characterisation applied to the concrete
two-county state. -/
theorem c1_witness :
    (⟨1, some 1⟩ : HomRow) ∈ state_homicide exTwoCounty ∧
      (⟨1, some 1⟩ : HomRow).homicides =
        some (stateHomSum exTwoCounty 1 / statePopSum exTwoCounty 1 * 100000) := by
  have hm : (⟨1, some 1⟩ : HomRow) ∈ state_homicide exTwoCounty := by
    rw [c1_ratio_of_sums.2.1]
    exact List.mem_singleton.2 rfl
  exact ⟨hm, c1_ratio_of_sums.1 exTwoCounty ⟨1, some 1⟩ hm⟩

/-! ### C5 -/

/-- A GQ-valid household record whose EDUC field holds the 99 missing
code. -/
def exMissingEdu : List PersonRecord :=
  [⟨2023, 1, 1, 1, 1, 1, 1, 1, 2, 99, 999⟩]

/-- C5 counterexample: the source never filters the EDUC = 99 missing code,
so a group-quarters-valid record with EDUC = 99 drives its state's education
aggregate to 99, outside [0, 11]. -/
theorem c5_counterexample :
    (ipums_summary exMissingEdu).map (fun r => r.education) = [99] ∧
      ¬((99 : ℚ) ≤ 11) := by
  constructor
  · simp +decide only [ipums_summary, gqKeep, sortedKeys, stateGroup, mean, exMissingEdu,
      List.filter, List.dedup, List.insertionSort, List.pwFilter, List.orderedInsert,
      List.map, List.sum_cons, List.sum_nil, List.length]
    norm_num
  · norm_num

/-- C5 (amended): provided every record passing the GQ filter carries an
educationLevel in the ordinal range 0-11 (i.e. no 99 missing codes, which
the source never removes), every per-state education aggregate lies in
[0, 11], and every per-state insured rate lies in [0, 1]. -/
theorem c5_aggregate_bounds (rs : List PersonRecord)
    (h : ∀ r ∈ rs, gqKeep r = true → r.educ ≤ 11) :
    ∀ row ∈ ipums_summary rs,
      (0 ≤ row.education ∧ row.education ≤ 11) ∧
        (0 ≤ row.insured_rate ∧ row.insured_rate ≤ 1) := by
  intro row hrow
  simp only [ipums_summary] at hrow
  obtain ⟨s, hsmem, rfl⟩ := List.mem_map.1 hrow
  obtain ⟨r0, hr0, hr0s⟩ := List.mem_map.1 (mem_sortedKeys.1 hsmem)
  have hgrp : r0 ∈ stateGroup (rs.filter gqKeep) s :=
    List.mem_filter.2 ⟨hr0, by simp [hr0s]⟩
  have hne : stateGroup (rs.filter gqKeep) s ≠ [] := List.ne_nil_of_mem hgrp
  constructor
  · refine mean_bounds ?_ ?_
    · simpa using hne
    · intro x hx
      obtain ⟨r1, hr1, rfl⟩ := List.mem_map.1 hx
      have hr1f := List.mem_filter.1 hr1
      have h11 := h r1 (List.mem_filter.1 hr1f.1).1 (List.mem_filter.1 hr1f.1).2
      constructor
      · positivity
      · exact_mod_cast h11
  · refine mean_bounds ?_ ?_
    · simpa using hne
    · intro x hx
      obtain ⟨r1, _, rfl⟩ := List.mem_map.1 hx
      by_cases hc : r1.hcovany == 2 <;> simp [hc]

/-- C5 witness: the bounds at a concrete one-record state. -/
theorem c5_witness :
    (∀ r ∈ ([⟨2023, 1, 1, 6, 1, 1, 1, 1, 2, 11, 110⟩] : List PersonRecord),
        gqKeep r = true → r.educ ≤ 11) ∧
      ∀ row ∈ ipums_summary [⟨2023, 1, 1, 6, 1, 1, 1, 1, 2, 11, 110⟩],
        (0 ≤ row.education ∧ row.education ≤ 11) ∧
          (0 ≤ row.insured_rate ∧ row.insured_rate ≤ 1) :=
  ⟨by decide, c5_aggregate_bounds _ (by decide)⟩

/-! ### C8 -/

/-- On a table with pairwise distinct keys, `find?` by key retrieves exactly
the entry holding that key. -/
theorem find_by_key_eq {l : List (Nat × String)} {s : Nat} {n : String}
    (hnd : (l.map Prod.fst).Nodup) (h : (s, n) ∈ l) :
    l.find? (fun p => p.1 == s) = some (s, n) := by
  induction l with
  | nil => cases h
  | cons a t ih =>
    rw [List.map_cons, List.nodup_cons] at hnd
    rcases List.mem_cons.1 h with h1 | h1
    · subst h1
      simp [List.find?_cons]
    · have hne : (a.1 == s) = false := by
        refine beq_eq_false_iff_ne.2 ?_
        intro he
        exact hnd.1 (he ▸ List.mem_map_of_mem Prod.fst h1)
      rw [List.find?_cons, hne]
      exact ih hnd.2 h1

/-- C8: the name-mapping step keeps every joined row (one output row per
input row, none dropped and none fatal); a row whose state code is absent
from the 50-states-plus-DC table is emitted with a missing name, and a row
whose code is in the table receives that table's canonical name. -/
theorem c8_state_name_mapping (l : List CombinedRow) (r : CombinedRow) (h : r ∈ l) :
    (selectDisplay l).length = l.length ∧
      ({ state := mapStateName r.statefip, education := r.education,
         insured_rate := r.insured_rate, homicides := r.homicides } : SummaryRow)
          ∈ selectDisplay l ∧
      (mapStateName r.statefip = none ↔ r.statefip ∉ state_names.map Prod.fst) ∧
      (∀ n : String, (r.statefip, n) ∈ state_names → mapStateName r.statefip = some n) := by
  refine ⟨List.length_map _ _, List.mem_map_of_mem _ h, ?_, ?_⟩
  · unfold mapStateName
    rw [Option.map_eq_none']
    constructor
    · intro hn hmem
      obtain ⟨p, hp, hps⟩ := List.mem_map.1 hmem
      have := List.find?_eq_none.1 hn p hp
      simp [hps] at this
    · intro hnot
      rw [List.find?_eq_none]
      intro p hp
      simp only [beq_iff_eq]
      intro hps
      exact hnot (hps ▸ List.mem_map_of_mem Prod.fst hp)
  · intro n hmem
    have hnd : (state_names.map Prod.fst).Nodup := by decide
    unfold mapStateName
    rw [find_by_key_eq hnd hmem]
    rfl

/-- A combined table with one unresolvable state code (3) and one mapped
code (1). -/
def exCombined : List CombinedRow :=
  [⟨3, 5, 1, none⟩, ⟨1, 4, 1, some 2⟩]

/-- C8 witness: code 3 is absent from the table and its row survives with a
missing name. -/
theorem c8_witness :
    (⟨3, 5, 1, none⟩ : CombinedRow) ∈ exCombined ∧
      (selectDisplay exCombined).length = exCombined.length ∧
      ({ state := mapStateName (3 : Nat), education := 5, insured_rate := 1,
         homicides := none } : SummaryRow) ∈ selectDisplay exCombined ∧
      (mapStateName (3 : Nat) = none ↔ (3 : Nat) ∉ state_names.map Prod.fst) ∧
      (∀ n : String, ((3 : Nat), n) ∈ state_names → mapStateName (3 : Nat) = some n) := by
  have hm : (⟨3, 5, 1, none⟩ : CombinedRow) ∈ exCombined :=
    List.mem_cons_self _ _
  exact ⟨hm, c8_state_name_mapping exCombined _ hm⟩

/-! ### C9 -/

/-- The sum of the insurance indicator column equals the number of insured
records. -/
theorem indicator_sum_eq_count (l : List PersonRecord) :
    (l.map (fun r => if r.hcovany == 2 then (1 : ℚ) else 0)).sum =
      ((l.filter (fun r => r.hcovany == 2)).length : ℚ) := by
  induction l with
  | nil => simp
  | cons a t ih =>
    by_cases hc : a.hcovany = 2
    · simp only [List.map_cons, List.sum_cons, List.filter_cons, hc, ih]
      simp
      ring
    · simp only [List.map_cons, List.sum_cons, List.filter_cons, ih]
      simp [hc]

/-- C9: the per-state education aggregate is the unweighted arithmetic mean
of EDUC and the insured rate is the unweighted fraction of records with
HCOVANY = 2; rewriting the PERWT field of every record in any way whatsoever
leaves the whole summary unchanged, so the aggregates are independent of the
person weight even though that column is read. -/
theorem c9_unweighted_aggregates (rs : List PersonRecord) (w : PersonRecord → ℚ) :
    ipums_summary (rs.map (fun r => { r with perwt := w r })) = ipums_summary rs ∧
      ∀ row ∈ ipums_summary rs,
        row.education =
          mean ((stateGroup (rs.filter gqKeep) row.statefip).map (fun r => (r.educ : ℚ))) ∧
        row.insured_rate =
          (((stateGroup (rs.filter gqKeep) row.statefip).filter
              (fun r => r.hcovany == 2)).length : ℚ) /
            ((stateGroup (rs.filter gqKeep) row.statefip).length : ℚ) := by
  constructor
  · simp only [ipums_summary, stateGroup, List.filter_map, List.map_map]
    rfl
  · intro row hrow
    simp only [ipums_summary] at hrow
    obtain ⟨s, _, rfl⟩ := List.mem_map.1 hrow
    refine ⟨rfl, ?_⟩
    show mean _ = _
    rw [mean, indicator_sum_eq_count, List.length_map]

/-- C9 witness: zeroing every person weight in the concrete three-state
microdata leaves the summary unchanged, and the education aggregate of the
concrete state 1 is the unweighted group mean. -/
theorem c9_witness :
    (⟨1, 6, 1⟩ : IpumsRow) ∈ ipums_summary exMicro123 ∧
      ipums_summary (exMicro123.map (fun r => { r with perwt := 0 })) =
        ipums_summary exMicro123 ∧
      (⟨1, 6, 1⟩ : IpumsRow).education =
        mean ((stateGroup (exMicro123.filter gqKeep) 1).map (fun r => (r.educ : ℚ))) := by
  have hi : ipums_summary exMicro123 = [⟨1, 6, 1⟩, ⟨2, 7, 0⟩, ⟨3, 8, 1⟩] := by
    simp +decide only [ipums_summary, gqKeep, sortedKeys, stateGroup, mean, exMicro123,
      List.filter, List.dedup, List.insertionSort, List.pwFilter, List.orderedInsert,
      List.map, List.sum_cons, List.sum_nil, List.length, IpumsRow.mk.injEq]
    norm_num
  have hm : (⟨1, 6, 1⟩ : IpumsRow) ∈ ipums_summary exMicro123 := by
    rw [hi]
    exact List.mem_cons_self _ _
  exact ⟨hm, (c9_unweighted_aggregates exMicro123 (fun _ => 0)).1,
    ((c9_unweighted_aggregates exMicro123 (fun _ => 0)).2 _ hm).1⟩

/-! ### C6 -/

/-- Two states with equal education means: one person in state 1 (Alabama)
and one in state 2 (Alaska), both with EDUC = 5. -/
def exTiePs : List PersonRecord :=
  [⟨2023, 1, 1, 1, 1, 1, 1, 1, 2, 5, 50⟩,
   ⟨2023, 1, 2, 2, 1, 1, 1, 1, 1, 5, 50⟩]

theorem exTie_summary : ipums_summary exTiePs = [⟨1, 5, 1⟩, ⟨2, 5, 0⟩] := by
  simp +decide only [ipums_summary, gqKeep, sortedKeys, stateGroup, mean, exTiePs,
    List.filter, List.dedup, List.insertionSort, List.pwFilter, List.orderedInsert,
    List.map, List.sum_cons, List.sum_nil, List.length, IpumsRow.mk.injEq]
  norm_num

/-- Before the sort, the joined rows stand in state-code ascending order. -/
theorem exTie_combined :
    selectDisplay (combine (ipums_summary exTiePs) (state_homicide [])) =
      [⟨some "Alabama", 5, 1, none⟩, ⟨some "Alaska", 5, 0, none⟩] := by
  rw [exTie_summary]
  rfl

/-- After the descending sort, the tied rows come out reversed. -/
theorem exTie_output :
    outputTable exTiePs [] =
      [⟨some "Alaska", 5, 0, none⟩, ⟨some "Alabama", 5, 1, none⟩] := by
  unfold outputTable
  rw [exTie_combined]
  simp [combined_sorted, eduLE, List.insertionSort, List.orderedInsert]

/-- C6 counterexample: with two states of equal education mean the joined
rows stand in state-code ascending order (Alabama, Alaska) before sorting,
yet the final table emits them as (Alaska, Alabama): the descending sort is
implemented by reversing an ascending argsort, so its tied rows do NOT
retain their original relative order. -/
theorem c6_counterexample :
    (selectDisplay (combine (ipums_summary exTiePs) (state_homicide []))).map
        (fun r => r.state) = [some "Alabama", some "Alaska"] ∧
      (outputTable exTiePs []).map (fun r => r.education) = [5, 5] ∧
      (outputTable exTiePs []).map (fun r => r.state) =
        [some "Alaska", some "Alabama"] := by
  refine ⟨?_, ?_, ?_⟩
  · rw [exTie_combined]
    rfl
  · rw [exTie_output]
    rfl
  · rw [exTie_output]
    rfl

/-- C6 (amended): the final summary table is sorted by education mean
descending and is a permutation of the joined rows; tied rows, however, are
NOT kept in their original state-code ascending order — the descending sort
reverses a stable ascending sort, so on the concrete two-state tie the rows
come out in state-code descending order. -/
theorem c6_sort_descending :
    (∀ l : List SummaryRow,
        List.Sorted (fun a b => eduLE b a) (combined_sorted l) ∧
          (combined_sorted l).Perm l) ∧
      (outputTable exTiePs []).map (fun r => r.education) = [5, 5] ∧
      (outputTable exTiePs []).map (fun r => r.state) =
        [some "Alaska", some "Alabama"] := by
  refine ⟨fun l => ⟨?_, ?_⟩, ?_, ?_⟩
  · exact List.pairwise_reverse.2 (List.sorted_insertionSort eduLE l)
  · exact (List.reverse_perm _).trans (List.perm_insertionSort eduLE l)
  · rw [exTie_output]
    rfl
  · rw [exTie_output]
    rfl

/-! ### C7 -/

/-- One state with education values 0, 0, 1, whose mean 1/3 has no exact
4-decimal representation. -/
def exThirdPs : List PersonRecord :=
  [⟨2023, 1, 1, 1, 1, 1, 1, 1, 2, 0, 0⟩,
   ⟨2023, 1, 2, 1, 1, 1, 1, 1, 1, 0, 0⟩,
   ⟨2023, 1, 3, 1, 1, 1, 1, 1, 2, 1, 10⟩]

theorem exThird_output :
    outputTable exThirdPs [] = [⟨some "Alabama", 1/3, 2/3, none⟩] := by
  have hi : ipums_summary exThirdPs = [⟨1, 1/3, 2/3⟩] := by
    simp +decide only [ipums_summary, gqKeep, sortedKeys, stateGroup, mean, exThirdPs,
      List.filter, List.dedup, List.insertionSort, List.pwFilter, List.orderedInsert,
      List.map, List.sum_cons, List.sum_nil, List.length, IpumsRow.mk.injEq]
    norm_num
  unfold outputTable
  rw [hi]
  rfl

theorem round4_third : round4 (1 / 3) = 3333 / 10000 := by
  simp only [round4]
  norm_num [round_eq]

/-- C7 counterexample: the persisted table is written from the unrounded
frame: an education mean of 1/3 is persisted exactly, although its
4-decimal rounding is 3333/10000 ≠ 1/3; the printed copy, by contrast,
carries the rounded value.  So the persisted float columns are not rounded
to 4 decimal places as the claim states. -/
theorem c7_counterexample :
    (outputTable exThirdPs []).map (fun r => r.education) = [1 / 3] ∧
      (displayedTable exThirdPs []).map (fun r => r.education) = [3333 / 10000] ∧
      round4 (1 / 3) = 3333 / 10000 ∧
      (1 : ℚ) / 3 ≠ 3333 / 10000 := by
  refine ⟨?_, ?_, round4_third, by norm_num⟩
  · rw [exThird_output]
    rfl
  · rw [displayedTable, exThird_output]
    simp only [List.map_cons, List.map_nil, roundRow]
    rw [round4_third]

/-- C7 (amended): the persisted output table has header/column order
state, education, insured_rate, homicides, exactly one row per joined
state (a permutation of the joined rows; no row added or dropped, and the
row type carries no index column), sorted by education descending; its
float values are persisted unrounded — the 4-decimal rounding applies only
to the printed copy of the table. -/
theorem c7_persisted_format (ps : List PersonRecord) (hs : List HealthRecord) :
    display_cols = ["state", "education", "insured_rate", "homicides"] ∧
      (outputTable ps hs).Perm
        (selectDisplay (combine (ipums_summary ps) (state_homicide hs))) ∧
      List.Sorted (fun a b => eduLE b a) (outputTable ps hs) ∧
      displayedTable ps hs = (outputTable ps hs).map roundRow := by
  refine ⟨rfl, ?_, ?_, rfl⟩
  · exact (List.reverse_perm _).trans (List.perm_insertionSort eduLE _)
  · exact List.pairwise_reverse.2 (List.sorted_insertionSort eduLE _)

end Postsecondary
